import Mathlib

/-!
Shallow embedding of the service-registry layer of the `objdb` package
(`etcdService.go`, with the plugin state from `etcdClient.go`).

Modelling conventions:
* External effects (the etcd client's `Get`/`Set`/`Delete` results, the JSON
  codec) are passed in as explicit parameters, so every function here is the
  pure control flow of the corresponding Go function over those outcomes.
* Go `strings.Split`/`strings.TrimPrefix`/`strings.Contains` are modelled on
  character lists (the source only ever splits on the single characters
  `/` and `:`).
* `uint64` store indices are `Nat` with an explicit `% 2 ^ 64` where the code
  adds to them.
* Goroutines and channels are modelled by explicit schedules of inputs and by
  lists of emitted events/writes, in program order.
-/

namespace Objdb

/-- `ServiceInfo` from the objdb interface: name, host address, port.
Go's `int` port is modelled as `Int`. -/
structure ServiceInfo where
  serviceName : String
  hostAddr : String
  port : Int
  deriving DecidableEq, Repr

/-- TTL constant from the source: `const serviceTTL = 30`. -/
def serviceTTL : Nat := 30

/-- Key built by `RegisterService`/`DeregisterService`:
`"/contiv.io/service/" + ServiceName + "/" + HostAddr + ":" + strconv.Itoa(Port)`. -/
def serviceKey (si : ServiceInfo) : String :=
  "/contiv.io/service/" ++ si.serviceName ++ "/" ++ si.hostAddr ++ ":" ++ toString si.port

/-! ### Go `strings` helpers, on character lists -/

/-- `strings.Split` with a one-character separator, on `List Char`.
Matches Go: splitting the empty string yields `[""]`, a separator at either
end yields an empty field there. -/
def splitCharList (sep : Char) : List Char → List (List Char)
  | [] => [[]]
  | c :: cs =>
    let r := splitCharList sep cs
    if c = sep then [] :: r
    else
      match r with
      | [] => [[c]]
      | h :: t => (c :: h) :: t

/-- `strings.Split(s, sep)` for the single-character separators the source uses. -/
def stringsSplit (s : String) (sep : Char) : List String :=
  (splitCharList sep s.data).map (fun l => String.mk l)

/-- `strings.TrimPrefix(s, pfx)`: drop `pfx` when it starts `s`, else `s` unchanged. -/
def trimPfx (s pfx : String) : String :=
  if pfx.data.isPrefixOf s.data then String.mk (s.data.drop pfx.data.length) else s

/-- Infix test on character lists (for `strings.Contains`). -/
def isInfixList (pat : List Char) : List Char → Bool
  | [] => pat.isEmpty
  | c :: cs => pat.isPrefixOf (c :: cs) || isInfixList pat cs

/-- `strings.Contains(s, sub)`. -/
def goContains (s sub : String) : Bool :=
  isInfixList sub.data s.data

/-! ### Go `strconv.Atoi` with the error ignored -/

/-- Accumulate decimal digits; `none` on a non-digit. -/
def digitsToNatAux : List Char → Nat → Option Nat
  | [], acc => some acc
  | c :: cs, acc =>
    if c.isDigit then digitsToNatAux cs (acc * 10 + (c.toNat - 48)) else none

/-- All-digit parse of a nonempty digit string. -/
def digitsToNat : List Char → Option Nat
  | [] => none
  | l => digitsToNatAux l 0

/-- `strconv.Atoi(s)` with the returned error discarded, as at
`portNum, _ := strconv.Atoi(parts[1])`: the Go call yields 0 together with an
error on any syntax error, so the discarded-error result is 0 there.
(Go's clamping on range overflow is not modelled; no claim depends on it.) -/
def atoiIgnoringError (s : String) : Int :=
  match s.data with
  | '-' :: rest =>
    match digitsToNat rest with
    | some n => -(n : Int)
    | none => 0
  | '+' :: rest =>
    match digitsToNat rest with
    | some n => (n : Int)
    | none => 0
  | l =>
    match digitsToNat l with
    | some n => (n : Int)
    | none => 0

/-! ### etcd client surface (external collaborator), as seen by `getServiceState` -/

/-- A child node of the service directory. `getServiceState` only reads the
`Value` of each immediate child, so children are modelled as leaves. -/
structure etcdLeafNode where
  key : String
  value : String
  deriving DecidableEq, Repr

/-- The top node of a recursive `Get` response: the code reads its `Dir` flag
and its immediate children. -/
structure etcdRespNode where
  key : String
  value : String
  dir : Bool
  nodes : List etcdLeafNode
  deriving DecidableEq, Repr

/-- A `Get` response: node tree plus the store-wide `EtcdIndex` (uint64). -/
structure etcdGetResponse where
  node : etcdRespNode
  index : Nat
  deriving DecidableEq, Repr

/-- Outcome of `kapi.Get`. The error carries its message (the code matches on
it with `strings.Contains`) and the etcd index reported in `client.Error`
at error time — present in the wire error but never read by this code. -/
inductive etcdGetResult where
  | ok (resp : etcdGetResponse)
  | err (msg : String) (index : Nat)
  deriving Repr

/-- The `json.Unmarshal` loop over `resp.Node.Nodes`: fail on the first value
the codec rejects, otherwise collect the instances in node order. -/
def unmarshalNodes (unmarshal : String → Option ServiceInfo) :
    List etcdLeafNode → Option (List ServiceInfo)
  | [] => some []
  | n :: rest =>
    match unmarshal n.value with
    | none => none
    | some si =>
      match unmarshalNodes unmarshal rest with
      | none => none
      | some l => some (si :: l)

/-- `getServiceState` (etcdService.go:79-113): returns
`(watchIndex, srvcList, error)`. A Go `error` is `Option String`
(`none` = nil). `uint64` addition wraps, hence the `% 2 ^ 64`. -/
def getServiceState (unmarshal : String → Option ServiceInfo) :
    etcdGetResult → Nat × List ServiceInfo × Option String
  | .err msg _idx =>
    if goContains msg "Key not found" then (0, [], none)
    else (0, [], some msg)
  | .ok resp =>
    if resp.node.dir = false then (0, [], some "Invalid Response from etcd")
    else
      match unmarshalNodes unmarshal resp.node.nodes with
      | none => (0, [], some "json unmarshal error")
      | some lst => ((resp.index + 1) % (2 ^ 64), lst, none)

/-! ### Watch events and the start of the watch goroutine -/

/-- `WatchServiceEventType`: Add, Del, Error. -/
inductive WatchServiceEventType where
  | add
  | del
  | error
  deriving DecidableEq, Repr

/-- `WatchServiceEvent` as sent on the caller's event channel. -/
structure WatchServiceEvent where
  eventType : WatchServiceEventType
  serviceInfo : ServiceInfo
  deriving DecidableEq, Repr

/-- `initServiceState` (etcdService.go:117-134): read the current state, send
one Add event per instance, return the index to watch from. Result:
(events injected into `eventCh`, returned index, returned error). -/
def initServiceState (unmarshal : String → Option ServiceInfo)
    (g : etcdGetResult) : List WatchServiceEvent × Nat × Option String :=
  match getServiceState unmarshal g with
  | (mIndex, _, some e) => ([], mIndex, some e)
  | (mIndex, srvcList, none) =>
    (srvcList.map (fun si => { eventType := .add, serviceInfo := si }), mIndex, none)

/-- How the watch goroutine of `WatchService` (etcdService.go:148-164) leaves
its initialization phase. -/
inductive WatchInitOutcome where
  | fatal (msg : String)
  | streaming (afterIndex : Nat)
  deriving DecidableEq, Repr

/-- Initialization phase of the watch goroutine (etcdService.go:148-166):
on a snapshot error the code calls `log.Fatalf`, which terminates the whole
process (modelled as `WatchInitOutcome.fatal`) — no event is emitted.
Otherwise, if `kapi.Watcher` returned nil, one Error event (with zero-value
`ServiceInfo`) is emitted, and the goroutine still falls through into the
watch loop. Result: (events emitted on `eventCh`, outcome). -/
def watchGoroutineInit (unmarshal : String → Option ServiceInfo)
    (g : etcdGetResult) (watcherNil : Bool) :
    List WatchServiceEvent × WatchInitOutcome :=
  match initServiceState unmarshal g with
  | (evs, _, some e) => (evs, .fatal e)
  | (evs, watchIndex, none) =>
    if watcherNil then
      (evs ++ [{ eventType := .error, serviceInfo := ⟨"", "", 0⟩ }], .streaming watchIndex)
    else (evs, .streaming watchIndex)

/-- `WatchService` (etcdService.go:137-251) from the caller's point of view:
it spawns the two goroutines and unconditionally returns nil. The pair keeps
the synchronous return value together with the asynchronous behaviour of the
spawned watch goroutine, for analysis. -/
def watchServiceSetup (unmarshal : String → Option ServiceInfo)
    (g : etcdGetResult) (watcherNil : Bool) :
    Option String × (List WatchServiceEvent × WatchInitOutcome) :=
  (none, watchGoroutineInit unmarshal g watcherNil)

/-! ### The event translator of the watch loop -/

/-- The translation applied to each raw response taken from `watchCh`
(etcdService.go:187-238): trim `"/contiv.io/service/"`, split the rest on
`/` (at least two parts required), split the second part on `:` (exactly two
parts required), parse the port with the `Atoi` error discarded, then map the
action: `set` to Add, `delete`/`expire` to Del, anything else to no event.
`none` means no event is sent on `eventCh` (the Go code `break`s out of the
select case and the loop continues — an unparseable key never crashes it). -/
def translateWatchEvent (action key : String) : Option WatchServiceEvent :=
  let srvKey := trimPfx key "/contiv.io/service/"
  match stringsSplit srvKey ('/') with
  | srvName :: hostPort :: _ =>
    match stringsSplit hostPort (':') with
    | [hostAddr, portStr] =>
      let srvInfo : ServiceInfo :=
        { serviceName := srvName, hostAddr := hostAddr, port := atoiIgnoringError portStr }
      if action = "set" then
        some { eventType := .add, serviceInfo := srvInfo }
      else if action = "delete" ∨ action = "expire" then
        some { eventType := .del, serviceInfo := srvInfo }
      else none
    | _ => none
  | _ => none

/-! ### Registration state: `serviceDb` and the renewal goroutines

`ep.serviceDb` is Go's `map[string]*serviceState`; it is modelled as a
function from key names to an optional entry. A renewal goroutine is named by
the `Nat` identity of its stop channel: `loops` lists the
(stop-channel id, key name) of every renewal goroutine that has been started
and has not been told to stop; `nextLoopId` supplies fresh channel ids.
Sending `true` on an entry's buffered stop channel makes its goroutine exit
at its next select, so it is removed from `loops`. -/

/-- `serviceState` (etcdService.go:19-26); `stopChan` is the id of the
renewal goroutine's stop channel. -/
structure serviceState where
  serviceName : String
  hostAddr : String
  port : Int
  stopChan : Nat
  deriving DecidableEq, Repr

/-- The registration-relevant state of an `etcdPlugin`. -/
structure RegState where
  serviceDb : String → Option serviceState
  loops : List (Nat × String)
  nextLoopId : Nat

/-- State after `Init`: empty `serviceDb`, no renewal goroutines. -/
def initialRegState : RegState :=
  { serviceDb := fun _ => none, loops := [], nextLoopId := 0 }

/-- `DeregisterService` (etcdService.go:255-278). `deleteOk` is the outcome
of `kapi.Delete`. If the key is not in `serviceDb`, it fails with
"Service not found" and changes nothing. Otherwise it signals the renewal
goroutine to stop, deletes the entry from `serviceDb`, and only then issues
the store delete, whose error is returned even though the local bookkeeping
is already cleaned up. -/
def DeregisterService (deleteOk : Bool) (si : ServiceInfo) (st : RegState) :
    RegState × Option String :=
  let keyName := serviceKey si
  match st.serviceDb keyName with
  | none => (st, some "Service not found")
  | some srvState =>
    let st1 : RegState :=
      { st with
        loops := st.loops.filter (fun p => p.1 != srvState.stopChan),
        serviceDb := fun k => if k = keyName then none else st.serviceDb k }
    if deleteOk then (st1, none) else (st1, some "etcd delete error")

/-- `RegisterService` (etcdService.go:31-69). `deleteOk` is the outcome of
the `kapi.Delete` inside the implicit deregistration, `marshal` the outcome
of `json.Marshal` (`none` = error), `setOk` the outcome of `kapi.Set`. If the
key is already in `serviceDb` the old registration is deregistered first
(its error discarded). Then marshal and the store write; on either failure
the error is returned and nothing is recorded. On success a fresh renewal
goroutine is started and the entry recorded. -/
def RegisterService (deleteOk : Bool) (marshal : Option String) (setOk : Bool)
    (si : ServiceInfo) (st : RegState) : RegState × Option String :=
  let keyName := serviceKey si
  let st1 :=
    if (st.serviceDb keyName).isSome then (DeregisterService deleteOk si st).1 else st
  match marshal with
  | none => (st1, some "json conversion error")
  | some _jsonVal =>
    if setOk = false then (st1, some "etcd set error")
    else
      let id := st1.nextLoopId
      ({ serviceDb := fun k =>
           if k = keyName then
             some { serviceName := si.serviceName, hostAddr := si.hostAddr,
                    port := si.port, stopChan := id }
           else st1.serviceDb k,
         loops := (id, keyName) :: st1.loops,
         nextLoopId := id + 1 }, none)

/-- One registration-table operation, with the store/codec outcomes it will
observe. -/
inductive RegOp where
  | register (deleteOk : Bool) (marshal : Option String) (setOk : Bool) (si : ServiceInfo)
  | deregister (deleteOk : Bool) (si : ServiceInfo)

/-- Apply one operation (discarding the returned error). -/
def applyRegOp (st : RegState) : RegOp → RegState
  | .register d m s si => (RegisterService d m s si st).1
  | .deregister d si => (DeregisterService d si st).1

/-- Run a sequence of operations from the initial state. -/
def applyRegOps (ops : List RegOp) : RegState :=
  ops.foldl applyRegOp initialRegState

/-! ### The renewal loop -/

/-- What the renewal loop's `select` observes in one iteration: either the
`T/3`-second timer fires (with the outcomes of the `kapi.Set` and of its
retry), or a value arrives on the stop channel. -/
inductive RefreshInput where
  | tick (firstOk : Bool) (retryOk : Bool)
  | stop
  deriving DecidableEq, Repr

/-- One `kapi.Set(key, value, ttl)` call issued by the renewal loop. -/
structure SetCall where
  key : String
  value : String
  ttl : Nat
  deriving DecidableEq, Repr

/-- `refreshService` (etcdService.go:281-303) as a function from the schedule
of select outcomes to the list of store writes it issues, in order. Each
timer tick re-Sets the same key/value with the full TTL; if that write fails
the loop immediately retries the same write once (its result only logged)
and in either case waits for the next cycle. A stop signal makes the loop
return at once: inputs after it produce no writes. -/
def refreshService (keyName keyVal : String) : List RefreshInput → List SetCall
  | [] => []
  | RefreshInput.stop :: _ => []
  | RefreshInput.tick firstOk _retryOk :: rest =>
    (if firstOk then [{ key := keyName, value := keyVal, ttl := serviceTTL }]
     else [{ key := keyName, value := keyVal, ttl := serviceTTL },
           { key := keyName, value := keyVal, ttl := serviceTTL }])
      ++ refreshService keyName keyVal rest

/-! ### Invariant tying `serviceDb` to the running renewal goroutines -/

/-- Well-formedness of the registration state: every running renewal
goroutine's stop-channel id is fresh-bounded, `loops` and `serviceDb` name
each other exactly, and stop-channel ids are pairwise distinct. -/
def RegInv (st : RegState) : Prop :=
  (∀ p ∈ st.loops, p.1 < st.nextLoopId) ∧
  (∀ p ∈ st.loops, ∃ s, st.serviceDb p.2 = some s ∧ s.stopChan = p.1) ∧
  (∀ k s, st.serviceDb k = some s → (s.stopChan, k) ∈ st.loops) ∧
  st.loops.Pairwise (fun a b => a.1 ≠ b.1)

theorem regInv_initial : RegInv initialRegState := by
  refine ⟨?_, ?_, ?_, ?_⟩ <;> simp [initialRegState]

theorem fst_inj_of_pairwise {l : List (Nat × String)}
    (hp : l.Pairwise (fun a b => a.1 ≠ b.1)) :
    ∀ p ∈ l, ∀ q ∈ l, p.1 = q.1 → p = q := by
  induction l with
  | nil => simp
  | cons a t ih =>
    rw [List.pairwise_cons] at hp
    intro p hpmem q hqmem heq
    rcases List.mem_cons.mp hpmem with rfl | hpt
    · rcases List.mem_cons.mp hqmem with rfl | hqt
      · rfl
      · exact absurd heq (hp.1 q hqt)
    · rcases List.mem_cons.mp hqmem with rfl | hqt
      · exact absurd heq.symm (hp.1 p hpt)
      · exact ih hp.2 p hpt q hqt heq

theorem loops_key_unique {st : RegState} (h : RegInv st) :
    ∀ p ∈ st.loops, ∀ q ∈ st.loops, p.2 = q.2 → p = q := by
  intro p hpmem q hqmem hkey
  obtain ⟨s, hs, hsc⟩ := h.2.1 p hpmem
  obtain ⟨s', hs', hsc'⟩ := h.2.1 q hqmem
  rw [hkey] at hs
  rw [hs] at hs'
  have : s = s' := Option.some.inj hs'
  exact fst_inj_of_pairwise h.2.2.2 p hpmem q hqmem (by rw [← hsc, ← hsc', this])

theorem deregister_none {d : Bool} {si : ServiceInfo} {st : RegState}
    (h : st.serviceDb (serviceKey si) = none) :
    DeregisterService d si st = (st, some "Service not found") := by
  simp only [DeregisterService, h]

theorem deregister_some {d : Bool} {si : ServiceInfo} {st : RegState} {s0 : serviceState}
    (h : st.serviceDb (serviceKey si) = some s0) :
    DeregisterService d si st =
      ({ st with
         loops := st.loops.filter (fun p => p.1 != s0.stopChan),
         serviceDb := fun k => if k = serviceKey si then none else st.serviceDb k },
       if d then none else some "etcd delete error") := by
  simp only [DeregisterService, h]
  split <;> rfl

theorem regInv_deregister (d : Bool) (si : ServiceInfo) (st : RegState)
    (h : RegInv st) : RegInv (DeregisterService d si st).1 := by
  cases hdb : st.serviceDb (serviceKey si) with
  | none => rw [deregister_none hdb]; exact h
  | some s0 =>
    rw [deregister_some hdb]
    dsimp only
    obtain ⟨h1, h2, h3, h4⟩ := h
    refine ⟨?_, ?_, ?_, ?_⟩
    · intro p hpmem
      simp only [List.mem_filter] at hpmem
      exact h1 p hpmem.1
    · intro p hpmem
      simp only [List.mem_filter] at hpmem
      obtain ⟨hpl, hpne⟩ := hpmem
      obtain ⟨s, hs, hsc⟩ := h2 p hpl
      refine ⟨s, ?_, hsc⟩
      have hkne : p.2 ≠ serviceKey si := by
        intro hkeq
        rw [hkeq, hdb] at hs
        have : s = s0 := (Option.some.inj hs).symm
        rw [this] at hsc
        simp [hsc] at hpne
      simp only [hkne, if_neg hkne]
      exact hs
    · intro k s hks
      by_cases hk : k = serviceKey si
      · simp [hk] at hks
      · simp only [if_neg hk] at hks
        have hmem := h3 k s hks
        refine List.mem_filter.mpr ⟨hmem, ?_⟩
        simp only [bne_iff_ne, ne_eq]
        intro hcontra
        have hmem0 := h3 (serviceKey si) s0 hdb
        have := fst_inj_of_pairwise h4 (s.stopChan, k) hmem (s0.stopChan, serviceKey si) hmem0 hcontra
        exact hk (congrArg Prod.snd this)
    · exact h4.filter _

theorem deregister_preserves_nextLoopId (d : Bool) (si : ServiceInfo) (st : RegState) :
    (DeregisterService d si st).1.nextLoopId = st.nextLoopId := by
  cases hdb : st.serviceDb (serviceKey si) with
  | none => rw [deregister_none hdb]
  | some s0 => rw [deregister_some hdb]

theorem deregister_clears_key (d : Bool) (si : ServiceInfo) (st : RegState) :
    (DeregisterService d si st).1.serviceDb (serviceKey si) = none ∨
      st.serviceDb (serviceKey si) = none := by
  cases hdb : st.serviceDb (serviceKey si) with
  | none => exact Or.inr rfl
  | some s0 =>
    rw [deregister_some hdb]
    exact Or.inl (by simp)

/-- The state `RegisterService` works on after its implicit-deregistration
step (etcdService.go:38-40), before the marshal and the store write. -/
def registerPreState (d : Bool) (si : ServiceInfo) (st : RegState) : RegState :=
  if (st.serviceDb (serviceKey si)).isSome then (DeregisterService d si st).1 else st

theorem register_eq_marshal_none (d s : Bool) (si : ServiceInfo) (st : RegState) :
    RegisterService d none s si st = (registerPreState d si st, some "json conversion error") :=
  rfl

theorem register_eq_set_fail (d : Bool) (si : ServiceInfo) (st : RegState) (v : String) :
    RegisterService d (some v) false si st = (registerPreState d si st, some "etcd set error") :=
  rfl

theorem register_success_loops (d : Bool) (si : ServiceInfo) (st : RegState) (v : String) :
    (RegisterService d (some v) true si st).1.loops =
      ((registerPreState d si st).nextLoopId, serviceKey si) ::
        (registerPreState d si st).loops :=
  rfl

theorem register_success_db (d : Bool) (si : ServiceInfo) (st : RegState) (v : String)
    (k : String) :
    (RegisterService d (some v) true si st).1.serviceDb k =
      if k = serviceKey si then
        some { serviceName := si.serviceName, hostAddr := si.hostAddr,
               port := si.port, stopChan := (registerPreState d si st).nextLoopId }
      else (registerPreState d si st).serviceDb k :=
  rfl

theorem register_success_next (d : Bool) (si : ServiceInfo) (st : RegState) (v : String) :
    (RegisterService d (some v) true si st).1.nextLoopId =
      (registerPreState d si st).nextLoopId + 1 :=
  rfl

theorem register_success_err (d : Bool) (si : ServiceInfo) (st : RegState) (v : String) :
    (RegisterService d (some v) true si st).2 = none :=
  rfl

theorem regInv_preState (d : Bool) (si : ServiceInfo) (st : RegState) (h : RegInv st) :
    RegInv (registerPreState d si st) := by
  unfold registerPreState
  split
  · exact regInv_deregister d si st h
  · exact h

theorem preState_key_none (d : Bool) (si : ServiceInfo) (st : RegState) :
    (registerPreState d si st).serviceDb (serviceKey si) = none := by
  unfold registerPreState
  by_cases hdb : (st.serviceDb (serviceKey si)).isSome
  · rw [if_pos hdb]
    obtain ⟨s0, hs0⟩ := Option.isSome_iff_exists.mp hdb
    rw [deregister_some hs0]
    dsimp only
    simp
  · rw [if_neg hdb]
    exact Option.not_isSome_iff_eq_none.mp hdb

theorem regInv_register (d : Bool) (m : Option String) (s : Bool) (si : ServiceInfo)
    (st : RegState) (h : RegInv st) : RegInv (RegisterService d m s si st).1 := by
  have hpre := regInv_preState d si st h
  cases m with
  | none => rw [register_eq_marshal_none]; exact hpre
  | some v =>
    cases s with
    | false => rw [register_eq_set_fail]; exact hpre
    | true =>
      obtain ⟨h1, h2, h3, h4⟩ := hpre
      have hkey := preState_key_none d si st
      refine ⟨?_, ?_, ?_, ?_⟩
      · intro p hpmem
        rw [register_success_loops] at hpmem
        rw [register_success_next]
        rcases List.mem_cons.mp hpmem with rfl | hpt
        · exact Nat.lt_succ_self _
        · exact Nat.lt_succ_of_lt (h1 p hpt)
      · intro p hpmem
        rw [register_success_loops] at hpmem
        rcases List.mem_cons.mp hpmem with rfl | hpt
        · refine ⟨serviceState.mk si.serviceName si.hostAddr si.port
            (registerPreState d si st).nextLoopId, ?_, rfl⟩
          rw [register_success_db]
          simp
        · obtain ⟨s', hs', hsc⟩ := h2 p hpt
          have hkne : p.2 ≠ serviceKey si := by
            intro hkeq
            rw [hkeq, hkey] at hs'
            cases hs'
          refine ⟨s', ?_, hsc⟩
          rw [register_success_db, if_neg hkne]
          exact hs'
      · intro k s' hks
        rw [register_success_db] at hks
        rw [register_success_loops]
        by_cases hk : k = serviceKey si
        · subst hk
          rw [if_pos rfl] at hks
          injection hks with hs'
          rw [← hs']
          exact List.mem_cons_self _ _
        · rw [if_neg hk] at hks
          exact List.mem_cons_of_mem _ (h3 k s' hks)
      · rw [register_success_loops, List.pairwise_cons]
        exact ⟨fun p hpt => (Nat.ne_of_lt (h1 p hpt)).symm, h4⟩

theorem regInv_applyRegOp (st : RegState) (op : RegOp) (h : RegInv st) :
    RegInv (applyRegOp st op) := by
  cases op with
  | register d m s si => exact regInv_register d m s si st h
  | deregister d si => exact regInv_deregister d si st h

theorem regInv_foldl (ops : List RegOp) (st : RegState) (h : RegInv st) :
    RegInv (ops.foldl applyRegOp st) := by
  induction ops generalizing st with
  | nil => exact h
  | cons op rest ih => exact ih _ (regInv_applyRegOp st op h)

theorem regInv_applyRegOps (ops : List RegOp) : RegInv (applyRegOps ops) :=
  regInv_foldl ops initialRegState regInv_initial

/-! ### Helper lemmas about the watch goroutine's initialization -/

theorem watchInit_fatal (u : String → Option ServiceInfo) (g : etcdGetResult)
    (w : Bool) (e : String) (h : (getServiceState u g).2.2 = some e) :
    watchGoroutineInit u g w = ([], WatchInitOutcome.fatal e) := by
  unfold watchGoroutineInit initServiceState
  rcases hg : getServiceState u g with ⟨idx, lst, err⟩
  rw [hg] at h
  simp only at h
  subst h
  rfl

/-! ### Claim C1 -/

/-- C1 counterexample: on a snapshot load failure ("connection refused" is
not a not-found message) the watch goroutine emits no event at all — in
particular not the single Error event the claim requires — and reaches
`log.Fatalf`, i.e. process death, instead of a Failed session state. -/
theorem C1_counterexample :
    (watchGoroutineInit (fun _ => none) (etcdGetResult.err "connection refused" 3) false).1
        = [] ∧
    (watchGoroutineInit (fun _ => none) (etcdGetResult.err "connection refused" 3) false).2
        = WatchInitOutcome.fatal "connection refused" := by
  exact ⟨rfl, rfl⟩

/-- C1 (amended): if loading the initial snapshot fails, the watch goroutine
emits no event on the output channel (in particular no Error event) and calls
`log.Fatalf`, terminating the whole process without starting a watch. -/
theorem C1_theorem : ∀ (u : String → Option ServiceInfo) (g : etcdGetResult)
    (w : Bool) (e : String),
    (getServiceState u g).2.2 = some e →
    watchGoroutineInit u g w = ([], WatchInitOutcome.fatal e) := by
  intro u g w e h
  exact watchInit_fatal u g w e h

/-- Witness for C1: a concrete failing snapshot load. -/
theorem C1_witness :
    (getServiceState (fun _ => none) (etcdGetResult.err "boom" 3)).2.2 = some "boom" ∧
    watchGoroutineInit (fun _ => none) (etcdGetResult.err "boom" 3) false
      = ([], WatchInitOutcome.fatal "boom") :=
  ⟨by decide, C1_theorem (fun _ => none) (etcdGetResult.err "boom" 3) false "boom" (by decide)⟩

/-! ### Claim C2 -/

/-- C2 counterexample: a "Key not found" failure while the store's current
index is 47 (the index reported inside the etcd error) makes the read return
index 0 and not the store's current index. -/
theorem C2_counterexample :
    getServiceState (fun _ => none) (etcdGetResult.err "Key not found" 47)
        = (0, [], none) ∧
    (0 : Nat) ≠ 47 := by
  exact ⟨rfl, by decide⟩

/-- C2 (amended): a "key not found" error from a recursive read is not
reported as an error: the read returns an empty instance list together with
index 0 — a sentinel (passed to the watcher as `AfterIndex` it makes etcd
watch from its current index), not the store's current index itself. -/
theorem C2_theorem : ∀ (u : String → Option ServiceInfo) (msg : String) (idx : Nat),
    goContains msg "Key not found" = true →
    getServiceState u (etcdGetResult.err msg idx) = (0, [], none) := by
  intro u msg idx h
  simp only [getServiceState]
  rw [if_pos h]

/-- Witness for C2: a concrete not-found read. -/
theorem C2_witness :
    goContains "100: Key not found" "Key not found" = true ∧
    getServiceState (fun _ => none) (etcdGetResult.err "100: Key not found" 5)
      = (0, [], none) :=
  ⟨by decide, C2_theorem (fun _ => none) "100: Key not found" 5 (by decide)⟩

/-! ### Claim C8 -/

/-- C8: for every successful snapshot read (an `ok` directory response whose
children all unmarshal), the returned watch index equals the store index
observed in the response plus one (uint64 addition, non-wrapping under the
stated bound). -/
theorem C8_theorem : ∀ (u : String → Option ServiceInfo) (resp : etcdGetResponse)
    (i : Nat) (l : List ServiceInfo),
    getServiceState u (etcdGetResult.ok resp) = (i, l, none) →
    resp.index + 1 < 2 ^ 64 →
    i = resp.index + 1 := by
  intro u resp i l h hlt
  simp only [getServiceState] at h
  cases hdir : resp.node.dir with
  | false =>
    rw [hdir] at h
    simp at h
  | true =>
    rw [hdir] at h
    simp only [Bool.true_eq_false, if_false] at h
    cases hu : unmarshalNodes u resp.node.nodes with
    | none =>
      rw [hu] at h
      simp at h
    | some lst =>
      rw [hu] at h
      simp only [Prod.mk.injEq] at h
      rw [← h.1]
      exact Nat.mod_eq_of_lt hlt

/-- Witness for C8: a concrete one-instance snapshot at store index 10. -/
theorem C8_witness : (11 : Nat) = 10 + 1 :=
  C8_theorem (fun v => some ⟨v, "h", 1⟩)
    ⟨⟨"/contiv.io/service/web", "", true, [⟨"/contiv.io/service/web/h:1", "a"⟩]⟩, 10⟩
    11 [⟨"a", "h", 1⟩] (by decide) (by decide)

/-! ### Claim C4 -/

/-- C4 counterexample: with a failing snapshot load, `WatchService` still
returns nil to its caller — the snapshot failure is not propagated
synchronously (the goroutine dies with `log.Fatalf` instead). -/
theorem C4_counterexample :
    (watchServiceSetup (fun _ => none) (etcdGetResult.err "snapshot failed" 3) false).1
        = none ∧
    (getServiceState (fun _ => none) (etcdGetResult.err "snapshot failed" 3)).2.2
        = some "snapshot failed" := by
  exact ⟨rfl, rfl⟩

/-- C4 (amended): `RegisterService` returns serialization failures and
initial store-write failures synchronously as its error result, but
`WatchService` unconditionally returns nil: a snapshot load failure is not
returned to the caller — it occurs asynchronously in the watch goroutine,
which terminates the process via `log.Fatalf`. -/
theorem C4_theorem : ∀ (st : RegState) (si : ServiceInfo) (d : Bool) (v : String)
    (u : String → Option ServiceInfo) (g : etcdGetResult) (w : Bool) (e : String),
    (RegisterService d none true si st).2 = some "json conversion error" ∧
    (RegisterService d (some v) false si st).2 = some "etcd set error" ∧
    (watchServiceSetup u g w).1 = none ∧
    ((getServiceState u g).2.2 = some e →
      (watchServiceSetup u g w).2.2 = WatchInitOutcome.fatal e) := by
  intro st si d v u g w e
  refine ⟨rfl, rfl, rfl, fun h => ?_⟩
  have hfatal := watchInit_fatal u g w e h
  show (watchGoroutineInit u g w).2 = WatchInitOutcome.fatal e
  rw [hfatal]

/-- Witness for C4: a concrete snapshot failure that the caller never sees. -/
theorem C4_witness :
    (getServiceState (fun _ => none) (etcdGetResult.err "snapfail" 3)).2.2
        = some "snapfail" ∧
    (watchServiceSetup (fun _ => none) (etcdGetResult.err "snapfail" 3) false).2.2
        = WatchInitOutcome.fatal "snapfail" :=
  ⟨by decide,
    (C4_theorem initialRegState ⟨"a", "b", 1⟩ true "v" (fun _ => none)
      (etcdGetResult.err "snapfail" 3) false "snapfail").2.2.2 (by decide)⟩

/-! ### Claim C3 -/

/-- C3 counterexample: a raw `set` event whose key has a non-numeric port
("http") still produces a domain event — `strconv.Atoi`'s error is discarded
at etcdService.go:208 and the port surfaces as 0 — contradicting the claim
that a malformed host:port segment with a non-numeric port yields no event. -/
theorem C3_counterexample :
    translateWatchEvent "set" "/contiv.io/service/web/10.0.0.5:http"
      = some ⟨WatchServiceEventType.add, ⟨"web", "10.0.0.5", 0⟩⟩ := by
  decide

/-- C3 (amended): a raw event whose key has the wrong depth under the service
namespace (fewer than two path segments after trimming), or whose host:port
segment does not split into exactly two parts on the colon, produces no
domain event for any action; the (total) translator never crashes the watch
loop. A well-shaped host:port with a non-numeric port is NOT rejected: the
Atoi error is discarded, so a `set` event is still produced, carrying
whatever `atoiIgnoringError` yields for the port — 0 for non-numeric text. -/
theorem C3_theorem : ∀ (action key : String),
    ((stringsSplit (trimPfx key "/contiv.io/service/") ('/')).length < 2 →
      translateWatchEvent action key = none) ∧
    (∀ (srvName hostPort : String) (rest : List String),
      stringsSplit (trimPfx key "/contiv.io/service/") ('/') = srvName :: hostPort :: rest →
      (stringsSplit hostPort (':')).length ≠ 2 →
      translateWatchEvent action key = none) ∧
    (∀ (srvName hostPort : String) (rest : List String) (hostAddr portStr : String),
      stringsSplit (trimPfx key "/contiv.io/service/") ('/') = srvName :: hostPort :: rest →
      stringsSplit hostPort (':') = [hostAddr, portStr] →
      translateWatchEvent "set" key
        = some ⟨WatchServiceEventType.add, ⟨srvName, hostAddr, atoiIgnoringError portStr⟩⟩) := by
  intro action key
  refine ⟨?_, ?_, ?_⟩
  · intro hlen
    simp only [translateWatchEvent]
    rcases hs : stringsSplit (trimPfx key "/contiv.io/service/") ('/') with _ | ⟨a, _ | ⟨b, t⟩⟩
    · rfl
    · rfl
    · rw [hs] at hlen
      simp only [List.length_cons] at hlen
      omega
  · intro srvName hostPort rest hsplit hcolon
    simp only [translateWatchEvent, hsplit]
    rcases hc : stringsSplit hostPort (':') with _ | ⟨x, _ | ⟨y, _ | ⟨z, t⟩⟩⟩
    · rfl
    · rfl
    · rw [hc] at hcolon
      simp at hcolon
    · rfl
  · intro srvName hostPort rest hostAddr portStr hsplit hcolon
    simp [translateWatchEvent, hsplit, hcolon]

/-- Witness for C3: a key with only one path segment yields no event. -/
theorem C3_witness :
    (stringsSplit (trimPfx "/contiv.io/service/web" "/contiv.io/service/") ('/')).length < 2 ∧
    translateWatchEvent "delete" "/contiv.io/service/web" = none :=
  ⟨by decide, ( C3_theorem "delete" "/contiv.io/service/web").1 (by decide)⟩

/-! ### Claim C9 -/

/-- C9: for every raw event whose key parses, action `set` maps to an Add
event, `delete` and `expire` map to a Del event, and any other action yields
no event. The translator is stateless — it looks only at the raw event — so a
`set` for an already-live key is surfaced again as Add, never suppressed. -/
theorem C9_theorem : ∀ (action key srvName hostPort : String) (rest : List String)
    (hostAddr portStr : String),
    stringsSplit (trimPfx key "/contiv.io/service/") ('/') = srvName :: hostPort :: rest →
    stringsSplit hostPort (':') = [hostAddr, portStr] →
    (translateWatchEvent "set" key
        = some ⟨WatchServiceEventType.add, ⟨srvName, hostAddr, atoiIgnoringError portStr⟩⟩) ∧
    (translateWatchEvent "delete" key
        = some ⟨WatchServiceEventType.del, ⟨srvName, hostAddr, atoiIgnoringError portStr⟩⟩) ∧
    (translateWatchEvent "expire" key
        = some ⟨WatchServiceEventType.del, ⟨srvName, hostAddr, atoiIgnoringError portStr⟩⟩) ∧
    (action ≠ "set" → action ≠ "delete" → action ≠ "expire" →
      translateWatchEvent action key = none) := by
  intro action key srvName hostPort rest hostAddr portStr h1 h2
  have hor : ∀ a : String, a ≠ "delete" → a ≠ "expire" →
      ¬(a = "delete" ∨ a = "expire") := by
    intro a hd he hcontra
    rcases hcontra with h | h
    · exact hd h
    · exact he h
  refine ⟨?_, ?_, ?_, ?_⟩
  · simp [translateWatchEvent, h1, h2]
  · simp [translateWatchEvent, h1, h2]
  · simp [translateWatchEvent, h1, h2]
  · intro hs hd he
    simp only [translateWatchEvent, h1, h2]
    rw [if_neg hs, if_neg (hor action hd he)]

/-- Witness for C9: a concrete `expire` event for a parseable key. -/
theorem C9_witness :
    stringsSplit (trimPfx "/contiv.io/service/web/h:80" "/contiv.io/service/") ('/')
        = ["web", "h:80"] ∧
    stringsSplit "h:80" (':') = ["h", "80"] ∧
    translateWatchEvent "expire" "/contiv.io/service/web/h:80"
        = some ⟨WatchServiceEventType.del, ⟨"web", "h", 80⟩⟩ :=
  ⟨by decide, by decide,
    ( C9_theorem "x" "/contiv.io/service/web/h:80" "web" "h:80" [] "h" "80"
      (by decide) (by decide)).2.2.1⟩

/-! ### Claim C5 -/

theorem preState_loops_of_some {d : Bool} {si : ServiceInfo} {st : RegState}
    {s0 : serviceState} (h : st.serviceDb (serviceKey si) = some s0) :
    (registerPreState d si st).loops
      = st.loops.filter (fun p => p.1 != s0.stopChan) := by
  unfold registerPreState
  rw [if_pos (by rw [h]; rfl), deregister_some h]

theorem preState_nextLoopId (d : Bool) (si : ServiceInfo) (st : RegState) :
    (registerPreState d si st).nextLoopId = st.nextLoopId := by
  unfold registerPreState
  split
  · exact deregister_preserves_nextLoopId d si st
  · rfl

/-- C5: across every sequence of register/deregister operations (with
arbitrary store and codec outcomes), no two distinct renewal goroutines for
the same identity key are ever alive, and registering an identity that is
already registered stops the existing registration's renewal goroutine — its
stop-channel id does not survive the re-registration, whether it succeeds or
fails. (`serviceDb` is a map, so it holds at most one Registration per key by
construction.) -/
theorem C5_theorem : ∀ (ops : List RegOp),
    (∀ p ∈ (applyRegOps ops).loops, ∀ q ∈ (applyRegOps ops).loops, p.2 = q.2 → p = q) ∧
    (∀ (d : Bool) (m : Option String) (s : Bool) (si : ServiceInfo) (s0 : serviceState),
      (applyRegOps ops).serviceDb (serviceKey si) = some s0 →
      (s0.stopChan, serviceKey si) ∉
        (applyRegOps (ops ++ [RegOp.register d m s si])).loops) := by
  intro ops
  have hinv := regInv_applyRegOps ops
  constructor
  · exact loops_key_unique hinv
  · intro d m s si s0 hdb
    have happ : applyRegOps (ops ++ [RegOp.register d m s si])
        = (RegisterService d m s si (applyRegOps ops)).1 := by
      unfold applyRegOps
      rw [List.foldl_append]
      rfl
    rw [happ]
    have hfilter : (s0.stopChan, serviceKey si) ∉
        (applyRegOps ops).loops.filter (fun p => p.1 != s0.stopChan) := by
      intro hmem
      have := List.of_mem_filter hmem
      simp at this
    have hloop : (s0.stopChan, serviceKey si) ∈ (applyRegOps ops).loops :=
      hinv.2.2.1 (serviceKey si) s0 hdb
    have hlt : s0.stopChan < (applyRegOps ops).nextLoopId :=
      hinv.1 (s0.stopChan, serviceKey si) hloop
    cases m with
    | none =>
      rw [register_eq_marshal_none]
      dsimp only
      rw [preState_loops_of_some hdb]
      exact hfilter
    | some v =>
      cases s with
      | false =>
        rw [register_eq_set_fail]
        dsimp only
        rw [preState_loops_of_some hdb]
        exact hfilter
      | true =>
        rw [register_success_loops]
        intro hmem
        rcases List.mem_cons.mp hmem with heq | htail
        · have : s0.stopChan = (registerPreState d si (applyRegOps ops)).nextLoopId :=
            congrArg Prod.fst heq
          rw [preState_nextLoopId] at this
          omega
        · rw [preState_loops_of_some hdb] at htail
          exact hfilter htail

/-- Witness for C5: registering the same identity twice leaves only the
second renewal goroutine; the first one's stop-channel id 0 is gone. -/
theorem C5_witness :
    (applyRegOps [RegOp.register true (some "v1") true ⟨"web", "h", 1⟩]).serviceDb
        (serviceKey ⟨"web", "h", 1⟩) = some ⟨"web", "h", 1, 0⟩ ∧
    (0, serviceKey ⟨"web", "h", 1⟩) ∉
      (applyRegOps ([RegOp.register true (some "v1") true ⟨"web", "h", 1⟩]
        ++ [RegOp.register true (some "v2") true ⟨"web", "h", 1⟩])).loops :=
  ⟨by decide,
    (C5_theorem [RegOp.register true (some "v1") true ⟨"web", "h", 1⟩]).2
      true (some "v2") true ⟨"web", "h", 1⟩ ⟨"web", "h", 1, 0⟩ (by decide)⟩

/-! ### Claim C6 -/

/-- C6: `DeregisterService` fails with the NotFound error and leaves the
state unchanged when no Registration exists for the identity; otherwise it
stops the renewal goroutine, removes the entry from the local table (other
keys untouched), and returns the store delete's error to the caller even
though the local bookkeeping is already cleaned up. -/
theorem C6_theorem : ∀ (st : RegState) (d : Bool) (si : ServiceInfo),
    (st.serviceDb (serviceKey si) = none →
      DeregisterService d si st = (st, some "Service not found")) ∧
    (∀ s0, st.serviceDb (serviceKey si) = some s0 →
      ((DeregisterService d si st).1.serviceDb (serviceKey si) = none ∧
       (DeregisterService d si st).1.loops
           = st.loops.filter (fun p => p.1 != s0.stopChan) ∧
       (∀ k, k ≠ serviceKey si →
         (DeregisterService d si st).1.serviceDb k = st.serviceDb k) ∧
       (DeregisterService d si st).2 = (if d then none else some "etcd delete error"))) := by
  intro st d si
  constructor
  · exact fun h => deregister_none h
  · intro s0 h
    rw [deregister_some h]
    refine ⟨by simp, rfl, fun k hk => by simp [hk], rfl⟩

/-- Witness for C6: deregistering a just-registered identity with a failing
store delete still reports the delete error. -/
theorem C6_witness :
    (applyRegOps [RegOp.register true (some "v") true ⟨"a", "b", 2⟩]).serviceDb
        (serviceKey ⟨"a", "b", 2⟩) = some ⟨"a", "b", 2, 0⟩ ∧
    (DeregisterService false ⟨"a", "b", 2⟩
        (applyRegOps [RegOp.register true (some "v") true ⟨"a", "b", 2⟩])).2
      = (if false then none else some "etcd delete error") :=
  ⟨by decide,
    ((C6_theorem (applyRegOps [RegOp.register true (some "v") true ⟨"a", "b", 2⟩])
        false ⟨"a", "b", 2⟩).2 ⟨"a", "b", 2, 0⟩ (by decide)).2.2.2⟩

/-! ### Claim C10 -/

/-- C10: whenever `RegisterService` returns an error, no Registration is
recorded for the identity and no renewal goroutine is running for it — also
in the re-registration case: the old entry was already deregistered before
the marshal/store write was attempted, so a failed re-registration leaves the
identity with no registration at all. -/
theorem C10_theorem : ∀ (st : RegState) (d : Bool) (m : Option String) (s : Bool)
    (si : ServiceInfo) (e : String),
    RegInv st →
    (RegisterService d m s si st).2 = some e →
    ((RegisterService d m s si st).1.serviceDb (serviceKey si) = none ∧
     ∀ p ∈ (RegisterService d m s si st).1.loops, p.2 ≠ serviceKey si) := by
  intro st d m s si e hinv herr
  have hres : (RegisterService d m s si st).1 = registerPreState d si st := by
    cases m with
    | none => rw [register_eq_marshal_none]
    | some v =>
      cases s with
      | false => rw [register_eq_set_fail]
      | true => rw [register_success_err] at herr; cases herr
  rw [hres]
  refine ⟨preState_key_none d si st, ?_⟩
  intro p hpmem hkeq
  obtain ⟨s', hs', _⟩ := (regInv_preState d si st hinv).2.1 p hpmem
  rw [hkeq, preState_key_none d si st] at hs'
  cases hs'

/-- Witness for C10: a failing marshal records nothing. -/
theorem C10_witness :
    (RegisterService true none true ⟨"w", "h", 9⟩ initialRegState).2
        = some "json conversion error" ∧
    (RegisterService true none true ⟨"w", "h", 9⟩ initialRegState).1.serviceDb
        (serviceKey ⟨"w", "h", 9⟩) = none :=
  ⟨by decide,
    (C10_theorem initialRegState true none true ⟨"w", "h", 9⟩ "json conversion error"
      regInv_initial (by decide)).1⟩

/-! ### Claim C7 -/

theorem refreshService_writes_const (k v : String) : ∀ ins : List RefreshInput,
    ∀ c ∈ refreshService k v ins, c = { key := k, value := v, ttl := serviceTTL } := by
  intro ins
  induction ins with
  | nil => intro c hc; cases hc
  | cons i rest ih =>
    cases i with
    | stop => intro c hc; cases hc
    | tick a b =>
      intro c hc
      simp only [refreshService] at hc
      rcases List.mem_append.mp hc with h | h
      · cases a <;> simp_all
      · exact ih c h

theorem refreshService_tick_len (k v : String) (ok1 ok2 : Bool)
    (rest : List RefreshInput) :
    (refreshService k v (RefreshInput.tick ok1 ok2 :: rest)).length
      = (if ok1 then 1 else 2) + (refreshService k v rest).length := by
  cases ok1 <;> simp [refreshService] <;> omega

theorem refreshService_stops (k v : String) : ∀ pre post : List RefreshInput,
    refreshService k v (pre ++ RefreshInput.stop :: post) = refreshService k v pre := by
  intro pre post
  induction pre with
  | nil => rfl
  | cons i rest ih =>
    cases i with
    | stop => rfl
    | tick a b =>
      simp only [List.cons_append, refreshService]
      rw [show rest.append (RefreshInput.stop :: post)
            = rest ++ RefreshInput.stop :: post from rfl, ih]

/-- C7: every write the renewal loop issues is the same key and value with
the full TTL (etcdService.go:287,292); a timer tick whose first write fails
issues exactly two writes — one immediate synchronous retry — and a
successful one exactly one; and once a stop signal is the next thing the
loop's select observes, it returns: the schedule after the stop contributes
no writes at all. -/
theorem C7_theorem : ∀ (k v : String) (ins : List RefreshInput),
    (∀ c ∈ refreshService k v ins, c = { key := k, value := v, ttl := serviceTTL }) ∧
    (∀ (ok1 ok2 : Bool) (rest : List RefreshInput),
      (refreshService k v (RefreshInput.tick ok1 ok2 :: rest)).length
        = (if ok1 then 1 else 2) + (refreshService k v rest).length) ∧
    (∀ pre post : List RefreshInput,
      refreshService k v (pre ++ RefreshInput.stop :: post) = refreshService k v pre) :=
  fun k v ins =>
    ⟨refreshService_writes_const k v ins,
     fun ok1 ok2 rest => refreshService_tick_len k v ok1 ok2 rest,
     fun pre post => refreshService_stops k v pre post⟩

/-- Witness for C7: a failed-then-stopped schedule issues only the retried
write pair, all with the service TTL, and nothing after the stop. -/
theorem C7_witness :
    SetCall.mk "k1" "v1" 30 ∈ refreshService "k1" "v1" [RefreshInput.tick false true] ∧
    SetCall.mk "k1" "v1" 30 = { key := "k1", value := "v1", ttl := serviceTTL } ∧
    refreshService "k1" "v1" ([RefreshInput.tick true true]
        ++ RefreshInput.stop :: [RefreshInput.tick false false])
      = refreshService "k1" "v1" [RefreshInput.tick true true] :=
  ⟨by decide,
    ( C7_theorem "k1" "v1" [RefreshInput.tick false true]).1 (SetCall.mk "k1" "v1" 30)
      (by decide),
    ( C7_theorem "k1" "v1" []).2.2 [RefreshInput.tick true true]
      [RefreshInput.tick false false]⟩

end Objdb
